import Mathlib

/-!
# sleepnumber-schedule: the command-and-poll workflow of `main`

A shallow embedding of `src/main.go`.  The remote SleepIQ client, the
configuration loader, the logger and the clock are the environment of the
program: their answers are the fields of a `World`, and `main` becomes a
function from a `World` to the calls it made and the way it exited.
-/

namespace SleepNumber

/-! ## Durations (`time.Duration` is a signed 64-bit count of nanoseconds) -/

/-- Wrap-around of an integer into the signed 64-bit range, as Go integer
arithmetic does on overflow. -/
def wrap64 (x : Int) : Int := (x + 2 ^ 63) % 2 ^ 64 - 2 ^ 63

/-- The constant `time.Second`, in nanoseconds. -/
def Second : Int := 1000000000

/-- Largest value of a `time.Duration`. -/
def maxDuration : Int := 2 ^ 63 - 1

/-- Go multiplication of two `time.Duration` values: the product wraps. -/
def mulDuration (a b : Int) : Int := wrap64 (a * b)

/-! ## Data model -/

/-- Configuration represents a YAML-formatted config file (lines 14-19). -/
structure Configuration where
  SleepIQUsername : String
  SleepIQPassword : String
  BedStatusPollInterval : Int
  BedStatusPollMax : Int
  deriving DecidableEq, Repr

/-- The fields of `sleepiq.Bed` that `main` reads. -/
structure Bed where
  BedID : String
  Name : String
  deriving DecidableEq, Repr, Inhabited

/-- The field of the status value returned by `ControlBedPosition` and
`BedFoundationStatus` that `main` reads. -/
structure BedStatus where
  IsMoving : Bool
  deriving DecidableEq, Repr

/-- One observable action of a run: a call to the SleepIQ client, or a call
to `time.Sleep` with its argument in nanoseconds. -/
inductive Call where
  | login (username password : String)
  | beds
  | controlBedPosition (bedID side : String) (position : Int)
  | bedFoundationStatus (bedID : String)
  | sleep (d : Int)
  deriving DecidableEq, Repr

/-- The ways `main` leaves the process, one per `os.Exit` / `logger.Fatal`
site, in source order. -/
inductive Outcome where
  | loggerFailed
  | configFailed
  | missingBedName
  | missingSide
  | missingPosition
  | loginFailed
  | bedsFailed
  | bedNotFound
  | commandFailed
  | pollFailed
  | timedOut
  | settled
  deriving DecidableEq, Repr

/-- Exit status of the process: `os.Exit(0)` on line 176, `os.Exit(1)` on
lines 45 and 169, and `logger.Fatal` of zap, which logs and then exits with
status 1, everywhere else. -/
def Outcome.exitCode : Outcome → Nat
  | Outcome.settled => 0
  | _ => 1

/-- What the environment answers during one run.  `bedFoundationStatus k` is
the answer to the k-th status query (counted from 0) and `since k` the value
of the k-th reading of `time.Since(t0)`; `none` (or `false` for `login`)
stands for a returned error. -/
structure World where
  loggerOk : Bool
  bedName : String
  side : String
  position : Int
  config : Option Configuration
  login : String → String → Bool
  beds : Option (List Bed)
  controlBedPosition : String → String → Int → Option BedStatus
  bedFoundationStatus : Nat → String → Option BedStatus
  since : Nat → Int

/-- The calls made by a run, the last value assigned to `bedStatus` by a call
that succeeded, and how the run ended (`none`: still polling when the
iteration budget ran out). -/
structure RunResult where
  calls : List Call
  bedStatus : Option BedStatus
  outcome : Option Outcome
  deriving DecidableEq, Repr

/-- Put the calls `cs` in front of the calls of `r`. -/
def RunResult.after (cs : List Call) (r : RunResult) : RunResult :=
  { r with calls := cs ++ r.calls }

/-! ## The program -/

/-- The bed-identification loop (lines 121-133), started at index `i`:
the pair of `index` and `targetBed` after the loop. -/
def findBedFrom (bedName : String) : List Bed → Nat → Int × Bed
  | [], _ => (-1, default)
  | bed :: rest, i =>
    if bed.Name = bedName then ((i : Int), bed) else findBedFrom bedName rest (i + 1)

/-- The bed-identification loop over `beds.Beds`. -/
def findBed (beds : List Bed) (bedName : String) : Int × Bed :=
  findBedFrom bedName beds 0

/-- The polling loop (lines 155-171) from its k-th iteration on, with at most
`fuel` further iterations. -/
def pollLoop (w : World) (config : Configuration) (bedID : String) :
    Nat → Nat → BedStatus → RunResult
  | 0, _, bedStatus =>
    if bedStatus.IsMoving then ⟨[], some bedStatus, none⟩
    else ⟨[], some bedStatus, some Outcome.settled⟩
  | fuel + 1, k, bedStatus =>
    if bedStatus.IsMoving then
      match w.bedFoundationStatus k bedID with
      | none => ⟨[Call.bedFoundationStatus bedID], none, some Outcome.pollFailed⟩
      | some fresh =>
        if w.since k ≥ mulDuration config.BedStatusPollMax Second then
          ⟨[Call.bedFoundationStatus bedID,
            Call.sleep (mulDuration config.BedStatusPollInterval Second)],
            some fresh, some Outcome.timedOut⟩
        else
          (pollLoop w config bedID fuel (k + 1) fresh).after
            [Call.bedFoundationStatus bedID,
             Call.sleep (mulDuration config.BedStatusPollInterval Second)]
    else ⟨[], some bedStatus, some Outcome.settled⟩

/-- The function `main` (lines 40-178), with at most `fuel` iterations of the
polling loop. -/
def run (fuel : Nat) (w : World) : RunResult :=
  if w.loggerOk = false then ⟨[], none, some Outcome.loggerFailed⟩
  else
    match w.config with
    | none => ⟨[], none, some Outcome.configFailed⟩
    | some config =>
      if w.bedName = "" then ⟨[], none, some Outcome.missingBedName⟩
      else if w.side = "" then ⟨[], none, some Outcome.missingSide⟩
      else if w.position = 0 then ⟨[], none, some Outcome.missingPosition⟩
      else if w.login config.SleepIQUsername config.SleepIQPassword = false then
        ⟨[Call.login config.SleepIQUsername config.SleepIQPassword], none,
          some Outcome.loginFailed⟩
      else
        match w.beds with
        | none =>
          ⟨[Call.login config.SleepIQUsername config.SleepIQPassword, Call.beds], none,
            some Outcome.bedsFailed⟩
        | some beds =>
          if (findBed beds w.bedName).1 = -1 then
            ⟨[Call.login config.SleepIQUsername config.SleepIQPassword, Call.beds], none,
              some Outcome.bedNotFound⟩
          else
            match w.controlBedPosition (findBed beds w.bedName).2.BedID w.side w.position with
            | none =>
              ⟨[Call.login config.SleepIQUsername config.SleepIQPassword, Call.beds,
                Call.controlBedPosition (findBed beds w.bedName).2.BedID w.side w.position],
                none, some Outcome.commandFailed⟩
            | some bedStatus =>
              (pollLoop w config (findBed beds w.bedName).2.BedID fuel 0 bedStatus).after
                [Call.login config.SleepIQUsername config.SleepIQPassword, Call.beds,
                 Call.controlBedPosition (findBed beds w.bedName).2.BedID w.side w.position]

/-! ## Observations on a run -/

/-- Is the call a status query (`getStatus`)? -/
def Call.isGetStatus : Call → Bool
  | Call.bedFoundationStatus _ => true
  | _ => false

/-- Is the call a position command (`setPosition`)? -/
def Call.isSetPosition : Call → Bool
  | Call.controlBedPosition _ _ _ => true
  | _ => false

/-- Is the call a `time.Sleep`? -/
def Call.isSleep : Call → Bool
  | Call.sleep _ => true
  | _ => false

/-- Is the call a call to the remote service (everything but a sleep)? -/
def Call.isService : Call → Bool
  | Call.sleep _ => false
  | _ => true

/-- Number of status queries among the calls. -/
def getStatusCount (cs : List Call) : Nat := cs.countP Call.isGetStatus

/-- Number of position commands among the calls. -/
def setPositionCount (cs : List Call) : Nat := cs.countP Call.isSetPosition

/-- Number of sleeps among the calls. -/
def sleepCount (cs : List Call) : Nat := cs.countP Call.isSleep

/-- The calls to the remote service, in order. -/
def serviceCalls (cs : List Call) : List Call := cs.filter Call.isService

/-- Exit status of a run that ended. -/
def RunResult.exitCode (r : RunResult) : Option Nat := r.outcome.map Outcome.exitCode

/-- A clock that advances only by the sleeps: `time.Sleep d` takes exactly
`d` (nothing when `d ≤ 0`, where it returns at once), every other step takes
no time, and `time.Since` saturates at the largest duration.  The value is the
reading after the sleep of iteration `k`. -/
def sleepClock (d : Int) (k : Nat) : Int := min (((k : Int) + 1) * max d 0) maxDuration

/-- The run gets as far as the bed-identification loop, over the bed list
`beds` and with the configuration `config`. -/
def ReachesBeds (w : World) (config : Configuration) (beds : List Bed) : Prop :=
  w.loggerOk = true ∧ w.config = some config ∧ w.bedName ≠ "" ∧ w.side ≠ "" ∧
    w.position ≠ 0 ∧ w.login config.SleepIQUsername config.SleepIQPassword = true ∧
    w.beds = some beds

/-- The run gets as far as the polling loop: the bed `bed` was identified and
the position command answered `first`. -/
def ReachesPoll (w : World) (config : Configuration) (bed : Bed) (first : BedStatus) : Prop :=
  ∃ beds, ReachesBeds w config beds ∧ (findBed beds w.bedName).1 ≠ -1 ∧
    (findBed beds w.bedName).2 = bed ∧
    w.controlBedPosition bed.BedID w.side w.position = some first

/-- The three calls every run makes before it enters the polling loop. -/
def preamble (w : World) (config : Configuration) (bed : Bed) : List Call :=
  [Call.login config.SleepIQUsername config.SleepIQPassword, Call.beds,
   Call.controlBedPosition bed.BedID w.side w.position]

/-- A call list that a run can have made before the polling loop starts: no
status query, no sleep, at most one position command, and the service calls
in the order authenticate, list beds, set position. -/
def EarlyCalls (w : World) (cs : List Call) : Prop :=
  getStatusCount cs = 0 ∧ sleepCount cs = 0 ∧
    ∃ user pass bedID,
      cs = [] ∨ cs = [Call.login user pass] ∨ cs = [Call.login user pass, Call.beds] ∨
        (cs = [Call.login user pass, Call.beds,
          Call.controlBedPosition bedID w.side w.position] ∧ w.side ≠ "" ∧ w.position ≠ 0)

/-! ## Scenarios -/

/-- The bed list of the end-to-end scenario. -/
def scenarioBeds : List Bed := [⟨"A", "Guest"⟩, ⟨"B", "Main"⟩]

/-- The end-to-end scenario: target Main, side Left, position 4, the command
answers moving, the status queries answer moving, moving, stopped; poll
interval 1 s, poll maximum 10 s, clock advanced only by the sleeps. -/
def scenarioWorld : World where
  loggerOk := true
  bedName := "Main"
  side := "Left"
  position := 4
  config := some ⟨"user", "secret", 1, 10⟩
  login := fun _ _ => true
  beds := some scenarioBeds
  controlBedPosition := fun _ _ _ => some ⟨true⟩
  bedFoundationStatus := fun k _ => some ⟨decide (k < 2)⟩
  since := sleepClock (mulDuration 1 Second)

/-- The bed list of the scenario with one more bed named Main. -/
def duplicateBeds : List Bed := [⟨"A", "Guest"⟩, ⟨"B", "Main"⟩, ⟨"C", "Main"⟩]

/-- The scenario over a bed list in which two beds are named Main. -/
def duplicateWorld : World := { scenarioWorld with beds := some duplicateBeds }

/-- The scenario with a target name that no bed carries. -/
def nonexistentWorld : World := { scenarioWorld with bedName := "Nonexistent" }

/-- The scenario with a command response that says the bed is not moving. -/
def stillWorld : World := { scenarioWorld with controlBedPosition := fun _ _ _ => some ⟨false⟩ }

/-- The scenario with a position command that fails. -/
def commandErrorWorld : World := { scenarioWorld with controlBedPosition := fun _ _ _ => none }

/-- The scenario without a side. -/
def noSideWorld : World := { scenarioWorld with side := "" }

/-- A run with a side that is neither Left nor Right and a position outside
1..6; the service rejects the position command. -/
def middleWorld : World :=
  { scenarioWorld with side := "Middle", position := 7, controlBedPosition := fun _ _ _ => none }

/-- Poll interval 1 s and poll maximum 1 s; the command answers moving, the
first status query answers stopped; clock advanced only by the sleeps. -/
def deadlineWorld : World :=
  { scenarioWorld with
    config := some ⟨"user", "secret", 1, 1⟩
    bedFoundationStatus := fun _ _ => some ⟨false⟩ }

/-- Poll interval 2 s and poll maximum 5 s, every status query answers
moving; clock advanced only by the sleeps. -/
def movingWorld : World :=
  { scenarioWorld with
    config := some ⟨"user", "secret", 2, 5⟩
    bedFoundationStatus := fun _ _ => some ⟨true⟩
    since := sleepClock (mulDuration 2 Second) }

/-- Poll interval 1 s and a poll maximum of 9223372037 s, whose product with
`time.Second` exceeds the largest duration; every status query answers moving;
clock advanced only by the sleeps. -/
def wrapMaxWorld : World :=
  { scenarioWorld with
    config := some ⟨"user", "secret", 1, 9223372037⟩
    bedFoundationStatus := fun _ _ => some ⟨true⟩ }

/-- Poll interval 18446744074 s, whose product with `time.Second` wraps to
290448384 ns, and poll maximum 1 s; every status query answers moving; clock
advanced only by the sleeps. -/
def wrapIntervalWorld : World :=
  { scenarioWorld with
    config := some ⟨"user", "secret", 18446744074, 1⟩
    bedFoundationStatus := fun _ _ => some ⟨true⟩
    since := sleepClock (mulDuration 18446744074 Second) }

/-- Poll interval 5 s and poll maximum 3 s; every status query answers
moving; clock advanced only by the sleeps. -/
def longIntervalWorld : World :=
  { scenarioWorld with
    config := some ⟨"user", "secret", 5, 3⟩
    bedFoundationStatus := fun _ _ => some ⟨true⟩
    since := sleepClock (mulDuration 5 Second) }

/-! ## Arithmetic of durations -/

theorem wrap64_of_range (x : Int) (h1 : -2 ^ 63 ≤ x) (h2 : x < 2 ^ 63) : wrap64 x = x := by
  unfold wrap64
  omega

theorem mulDuration_seconds (a : Int) (h1 : 0 ≤ a) (h2 : a * 1000000000 < 2 ^ 63) :
    mulDuration a Second = a * 1000000000 := by
  unfold mulDuration Second
  apply wrap64_of_range
  · omega
  · exact h2

theorem sleepClock_ge_iff (d thr : Int) (k : Nat) (hd : 0 ≤ d) (hthr : thr < 2 ^ 63) :
    sleepClock d k ≥ thr ↔ ((k : Int) + 1) * d ≥ thr := by
  unfold sleepClock maxDuration
  rw [max_eq_left hd]
  constructor
  · intro h
    exact le_trans h (min_le_left _ _)
  · intro h
    apply le_min h
    omega

/-- The ceiling of `M / I`, written `(M + I - 1) / I`: the least count of
intervals that covers `M`. -/
theorem ceil_props (I M : Int) (hI : 0 < I) (hM : 0 < M) :
    1 ≤ (M + I - 1) / I ∧ M ≤ (M + I - 1) / I * I ∧ ((M + I - 1) / I - 1) * I < M := by
  have h1 := Int.ediv_add_emod (M + I - 1) I
  have h2 := Int.emod_nonneg (M + I - 1) (ne_of_gt hI)
  have h3 := Int.emod_lt_of_pos (M + I - 1) hI
  have h4 : M ≤ (M + I - 1) / I * I := by
    rw [mul_comm]
    omega
  refine ⟨?_, h4, ?_⟩
  · by_contra hq
    have hq0 : (M + I - 1) / I ≤ 0 := by omega
    have : (M + I - 1) / I * I ≤ 0 := mul_nonpos_of_nonpos_of_nonneg hq0 (le_of_lt hI)
    omega
  · rw [sub_mul, mul_comm]
    omega

theorem floor_ceil (I M : Int) (hI : 0 < I) (hM : 0 < M) :
    M / I ≤ (M + I - 1) / I ∧ (M + I - 1) / I ≤ M / I + 1 := by
  obtain ⟨_, h2, h3⟩ := ceil_props I M hI hM
  constructor
  · exact Int.ediv_le_of_le_mul hI h2
  · have := Int.le_ediv_of_mul_le hI (le_of_lt h3)
    omega


/-! ## Counting calls -/

@[simp] theorem after_calls (cs : List Call) (r : RunResult) :
    (r.after cs).calls = cs ++ r.calls := rfl

@[simp] theorem after_outcome (cs : List Call) (r : RunResult) :
    (r.after cs).outcome = r.outcome := rfl

@[simp] theorem after_bedStatus (cs : List Call) (r : RunResult) :
    (r.after cs).bedStatus = r.bedStatus := rfl

@[simp] theorem getStatusCount_nil : getStatusCount [] = 0 := rfl

@[simp] theorem sleepCount_nil : sleepCount [] = 0 := rfl

@[simp] theorem setPositionCount_nil : setPositionCount [] = 0 := rfl

@[simp] theorem getStatusCount_append (a b : List Call) :
    getStatusCount (a ++ b) = getStatusCount a + getStatusCount b := by
  simp [getStatusCount]

@[simp] theorem sleepCount_append (a b : List Call) :
    sleepCount (a ++ b) = sleepCount a + sleepCount b := by
  simp [sleepCount]

@[simp] theorem setPositionCount_append (a b : List Call) :
    setPositionCount (a ++ b) = setPositionCount a + setPositionCount b := by
  simp [setPositionCount]

@[simp] theorem getStatusCount_round (bedID : String) (d : Int) :
    getStatusCount [Call.bedFoundationStatus bedID, Call.sleep d] = 1 := rfl

@[simp] theorem sleepCount_round (bedID : String) (d : Int) :
    sleepCount [Call.bedFoundationStatus bedID, Call.sleep d] = 1 := rfl

@[simp] theorem setPositionCount_round (bedID : String) (d : Int) :
    setPositionCount [Call.bedFoundationStatus bedID, Call.sleep d] = 0 := rfl

@[simp] theorem getStatusCount_preamble (w : World) (config : Configuration) (bed : Bed) :
    getStatusCount (preamble w config bed) = 0 := rfl

@[simp] theorem sleepCount_preamble (w : World) (config : Configuration) (bed : Bed) :
    sleepCount (preamble w config bed) = 0 := rfl

@[simp] theorem setPositionCount_preamble (w : World) (config : Configuration) (bed : Bed) :
    setPositionCount (preamble w config bed) = 1 := rfl

theorem bedStatus_moving (s : BedStatus) (h : s.IsMoving = true) : s = ⟨true⟩ := by
  cases s
  simp_all

/-! ## The bed-identification loop -/

theorem findBedFrom_none (n : String) (L : List Bed) (i : Nat)
    (h : ∀ x ∈ L, x.Name ≠ n) : findBedFrom n L i = (-1, default) := by
  induction L generalizing i with
  | nil => rfl
  | cons b rest ih =>
    have hb : b.Name ≠ n := h b (List.mem_cons_self _ _)
    have hrest : ∀ x ∈ rest, x.Name ≠ n := fun x hx => h x (List.mem_cons_of_mem _ hx)
    simp [findBedFrom, hb, ih (i + 1) hrest]

theorem findBedFrom_first (n : String) (pre : List Bed) (b : Bed) (post : List Bed) (i : Nat)
    (hpre : ∀ x ∈ pre, x.Name ≠ n) (hb : b.Name = n) :
    findBedFrom n (pre ++ b :: post) i = (((i + pre.length : Nat) : Int), b) := by
  induction pre generalizing i with
  | nil => simp [findBedFrom, hb]
  | cons c rest ih =>
    have hc : c.Name ≠ n := hpre c (List.mem_cons_self _ _)
    have hrest : ∀ x ∈ rest, x.Name ≠ n := fun x hx => hpre x (List.mem_cons_of_mem _ hx)
    have step : findBedFrom n (c :: (rest ++ b :: post)) i =
        findBedFrom n (rest ++ b :: post) (i + 1) := by
      simp [findBedFrom, hc]
    rw [List.cons_append, step, ih (i + 1) hrest, List.length_cons]
    congr 2
    omega

/-! ## The polling loop -/

theorem pollLoop_stopped (w : World) (config : Configuration) (bedID : String)
    (fuel k : Nat) (st : BedStatus) (h : st.IsMoving = false) :
    pollLoop w config bedID fuel k st = ⟨[], some st, some Outcome.settled⟩ := by
  cases fuel <;> simp [pollLoop, h]

/-- Once a deadline check at iteration `k + n` must fire, the loop ends within
`n + 1` iterations, whatever the status queries answer. -/
theorem pollLoop_terminates_within (w : World) (config : Configuration) (bedID : String)
    (fuel k n : Nat) (st : BedStatus)
    (hdead : w.since (k + n) ≥ mulDuration config.BedStatusPollMax Second)
    (hfuel : n < fuel) :
    (pollLoop w config bedID fuel k st).outcome.isSome = true ∧
      getStatusCount (pollLoop w config bedID fuel k st).calls ≤ n + 1 ∧
      sleepCount (pollLoop w config bedID fuel k st).calls ≤ n + 1 := by
  induction fuel generalizing k n st with
  | zero => omega
  | succ fuel ih =>
    cases hm : st.IsMoving with
    | false => simp [pollLoop_stopped w config bedID _ k st hm]
    | true =>
      cases hs : w.bedFoundationStatus k bedID with
      | none => simp [pollLoop, hm, hs, getStatusCount, sleepCount, Call.isGetStatus, Call.isSleep]
      | some fresh =>
        by_cases hd : w.since k ≥ mulDuration config.BedStatusPollMax Second
        · simp [pollLoop, hm, hs, hd]
        · cases n with
          | zero => exact absurd hdead hd
          | succ m =>
            have hdead2 : w.since (k + 1 + m) ≥ mulDuration config.BedStatusPollMax Second := by
              have e : k + 1 + m = k + (m + 1) := by omega
              rw [e]
              exact hdead
            have hrec := ih (k + 1) m fresh hdead2 (by omega)
            simp only [pollLoop, hm, hs, hd, if_true, if_false, after_outcome, after_calls,
              getStatusCount_append, sleepCount_append, getStatusCount_round, sleepCount_round]
            refine ⟨hrec.1, ?_, ?_⟩ <;> omega

/-- When every status query answers moving and the deadline check fires first
at iteration `k + n`, the loop times out after exactly `n + 1` queries and
`n + 1` sleeps. -/
theorem pollLoop_all_moving (w : World) (config : Configuration) (bedID : String)
    (fuel k n : Nat)
    (hmov : ∀ j, w.bedFoundationStatus j bedID = some ⟨true⟩)
    (hlive : ∀ j, k ≤ j → j < k + n → w.since j < mulDuration config.BedStatusPollMax Second)
    (hdead : w.since (k + n) ≥ mulDuration config.BedStatusPollMax Second)
    (hfuel : n < fuel) :
    (pollLoop w config bedID fuel k ⟨true⟩).outcome = some Outcome.timedOut ∧
      getStatusCount (pollLoop w config bedID fuel k ⟨true⟩).calls = n + 1 ∧
      sleepCount (pollLoop w config bedID fuel k ⟨true⟩).calls = n + 1 ∧
      (pollLoop w config bedID fuel k ⟨true⟩).bedStatus = some ⟨true⟩ := by
  induction fuel generalizing k n with
  | zero => omega
  | succ fuel ih =>
    cases n with
    | zero =>
      have hd : w.since k ≥ mulDuration config.BedStatusPollMax Second := hdead
      simp [pollLoop, hmov k, hd]
    | succ m =>
      have hd : ¬ w.since k ≥ mulDuration config.BedStatusPollMax Second :=
        not_le.mpr (hlive k (le_refl k) (by omega))
      have hdead2 : w.since (k + 1 + m) ≥ mulDuration config.BedStatusPollMax Second := by
        have e : k + 1 + m = k + (m + 1) := by omega
        rw [e]
        exact hdead
      have hrec := ih (k + 1) m (fun j h1 h2 => hlive j (by omega) (by omega)) hdead2 (by omega)
      simp only [pollLoop, hmov k, hd, if_true, if_false, after_outcome, after_calls,
        after_bedStatus, getStatusCount_append, sleepCount_append, getStatusCount_round,
        sleepCount_round]
      refine ⟨hrec.1, ?_, ?_, hrec.2.2.2⟩ <;> omega

/-- A loop that ends by the timeout made its last status query at some
iteration whose deadline check fired; the status it holds is the answer to
that query. -/
theorem pollLoop_timedOut_inv (w : World) (config : Configuration) (bedID : String)
    (fuel k : Nat) (st : BedStatus)
    (h : (pollLoop w config bedID fuel k st).outcome = some Outcome.timedOut) :
    ∃ j fresh, getStatusCount (pollLoop w config bedID fuel k st).calls = j + 1 ∧
      w.since (k + j) ≥ mulDuration config.BedStatusPollMax Second ∧
      w.bedFoundationStatus (k + j) bedID = some fresh ∧
      (pollLoop w config bedID fuel k st).bedStatus = some fresh := by
  induction fuel generalizing k st with
  | zero =>
    cases hm : st.IsMoving <;> simp [pollLoop, hm] at h
  | succ fuel ih =>
    cases hm : st.IsMoving with
    | false => simp [pollLoop, hm] at h
    | true =>
      cases hs : w.bedFoundationStatus k bedID with
      | none => simp [pollLoop, hm, hs] at h
      | some fresh =>
        by_cases hd : w.since k ≥ mulDuration config.BedStatusPollMax Second
        · refine ⟨0, fresh, ?_, ?_, ?_, ?_⟩ <;> simp [pollLoop, hm, hs, hd]
        · simp only [pollLoop, hm, hs, hd, if_true, if_false, after_outcome] at h
          obtain ⟨j, fr, h1, h2, h3, h4⟩ := ih (k + 1) fresh h
          have e : k + (j + 1) = k + 1 + j := by omega
          refine ⟨j + 1, fr, ?_, ?_, ?_, ?_⟩
          · simp only [pollLoop, hm, hs, hd, if_true, if_false, after_calls,
              getStatusCount_append, getStatusCount_round]
            omega
          · rw [e]; exact h2
          · rw [e]; exact h3
          · simp only [pollLoop, hm, hs, hd, if_true, if_false, after_bedStatus]
            exact h4

/-- A status query that was made, answered stopped and was followed by a
deadline check that did not fire is the last one, and the loop ends settled. -/
theorem pollLoop_settles (w : World) (config : Configuration) (bedID : String)
    (fuel k j : Nat) (st : BedStatus)
    (hmade : j < getStatusCount (pollLoop w config bedID fuel k st).calls)
    (hstop : w.bedFoundationStatus (k + j) bedID = some ⟨false⟩)
    (hlive : w.since (k + j) < mulDuration config.BedStatusPollMax Second) :
    (pollLoop w config bedID fuel k st).outcome = some Outcome.settled ∧
      getStatusCount (pollLoop w config bedID fuel k st).calls = j + 1 ∧
      (pollLoop w config bedID fuel k st).bedStatus = some ⟨false⟩ := by
  induction fuel generalizing k j st with
  | zero =>
    cases hm : st.IsMoving <;> simp [pollLoop, hm] at hmade
  | succ fuel ih =>
    cases hm : st.IsMoving with
    | false => simp [pollLoop, hm] at hmade
    | true =>
      cases hs : w.bedFoundationStatus k bedID with
      | none =>
        simp [pollLoop, hm, hs, getStatusCount, Call.isGetStatus] at hmade
        subst hmade
        simp [hs] at hstop
      | some fresh =>
        by_cases hd : w.since k ≥ mulDuration config.BedStatusPollMax Second
        · simp [pollLoop, hm, hs, hd] at hmade
          subst hmade
          exact absurd hd (not_le.mpr hlive)
        · simp only [pollLoop, hm, hs, hd, if_true, if_false, after_calls, after_outcome,
            after_bedStatus, getStatusCount_append, getStatusCount_round] at hmade ⊢
          cases j with
          | zero =>
            have hf : fresh = ⟨false⟩ := by
              have : some fresh = some (⟨false⟩ : BedStatus) := by
                rw [← hs]; exact hstop
              exact Option.some.inj this
            subst hf
            simp [pollLoop_stopped w config bedID fuel (k + 1) ⟨false⟩ rfl]
          | succ m =>
            have e : k + (m + 1) = k + 1 + m := by omega
            rw [e] at hstop hlive
            have hrec := ih (k + 1) m fresh (by omega) hstop hlive
            refine ⟨hrec.1, ?_, hrec.2.2⟩
            omega

/-- Every status query but the last one made by the loop answered moving, and
the deadline check after it did not fire. -/
theorem pollLoop_earlier_moving (w : World) (config : Configuration) (bedID : String)
    (fuel k j : Nat) (st : BedStatus)
    (hj : j + 1 < getStatusCount (pollLoop w config bedID fuel k st).calls) :
    w.bedFoundationStatus (k + j) bedID = some ⟨true⟩ ∧
      w.since (k + j) < mulDuration config.BedStatusPollMax Second := by
  induction fuel generalizing k j st with
  | zero =>
    cases hm : st.IsMoving <;> simp [pollLoop, hm] at hj
  | succ fuel ih =>
    cases hm : st.IsMoving with
    | false => simp [pollLoop, hm] at hj
    | true =>
      cases hs : w.bedFoundationStatus k bedID with
      | none => simp [pollLoop, hm, hs, getStatusCount, Call.isGetStatus] at hj
      | some fresh =>
        by_cases hd : w.since k ≥ mulDuration config.BedStatusPollMax Second
        · simp [pollLoop, hm, hs, hd] at hj
        · simp only [pollLoop, hm, hs, hd, if_true, if_false, after_calls,
            getStatusCount_append, getStatusCount_round] at hj
          cases j with
          | zero =>
            cases hf : fresh.IsMoving with
            | false =>
              rw [pollLoop_stopped w config bedID fuel (k + 1) fresh hf] at hj
              simp at hj
            | true =>
              rw [bedStatus_moving fresh hf] at hs
              exact ⟨hs, not_le.mp hd⟩
          | succ m =>
            have e : k + (m + 1) = k + 1 + m := by omega
            rw [e]
            exact ih (k + 1) m fresh (by omega)

/-- The loop issues no position command, and its calls to the service are
status queries for the target bed only. -/
theorem pollLoop_service (w : World) (config : Configuration) (bedID : String)
    (fuel k : Nat) (st : BedStatus) :
    setPositionCount (pollLoop w config bedID fuel k st).calls = 0 ∧
      serviceCalls (pollLoop w config bedID fuel k st).calls =
        List.replicate (getStatusCount (pollLoop w config bedID fuel k st).calls)
          (Call.bedFoundationStatus bedID) := by
  induction fuel generalizing k st with
  | zero =>
    cases hm : st.IsMoving <;> simp [pollLoop, hm, serviceCalls]
  | succ fuel ih =>
    cases hm : st.IsMoving with
    | false => simp [pollLoop, hm, serviceCalls]
    | true =>
      cases hs : w.bedFoundationStatus k bedID with
      | none =>
        simp [pollLoop, hm, hs, serviceCalls, getStatusCount, setPositionCount,
          Call.isGetStatus, Call.isService, Call.isSetPosition, List.replicate]
      | some fresh =>
        by_cases hd : w.since k ≥ mulDuration config.BedStatusPollMax Second
        · simp [pollLoop, hm, hs, hd, serviceCalls, Call.isService, List.replicate]
        · have hrec := ih (k + 1) fresh
          simp only [pollLoop, hm, hs, hd, if_true, if_false, after_calls,
            setPositionCount_append, setPositionCount_round, getStatusCount_append,
            getStatusCount_round]
          refine ⟨by omega, ?_⟩
          have e : serviceCalls ([Call.bedFoundationStatus bedID,
              Call.sleep (mulDuration config.BedStatusPollInterval Second)] ++
              (pollLoop w config bedID fuel (k + 1) fresh).calls) =
              Call.bedFoundationStatus bedID ::
                serviceCalls (pollLoop w config bedID fuel (k + 1) fresh).calls := by
            simp [serviceCalls, Call.isService]
          rw [e, hrec.2, Nat.add_comm 1, List.replicate_succ]

/-! ## The whole run -/

theorem pollLoop_fuel_mono (w : World) (config : Configuration) (bedID : String)
    (fuel m k : Nat) (st : BedStatus)
    (h : (pollLoop w config bedID fuel k st).outcome.isSome = true) :
    pollLoop w config bedID (fuel + m) k st = pollLoop w config bedID fuel k st := by
  induction fuel generalizing k st with
  | zero =>
    cases hm : st.IsMoving with
    | false => rw [pollLoop_stopped _ _ _ _ _ _ hm, pollLoop_stopped _ _ _ _ _ _ hm]
    | true => simp [pollLoop, hm] at h
  | succ fuel ih =>
    have e : fuel + 1 + m = (fuel + m) + 1 := by omega
    rw [e]
    cases hm : st.IsMoving with
    | false => rw [pollLoop_stopped _ _ _ _ _ _ hm, pollLoop_stopped _ _ _ _ _ _ hm]
    | true =>
      cases hs : w.bedFoundationStatus k bedID with
      | none => simp [pollLoop, hm, hs]
      | some fresh =>
        by_cases hd : w.since k ≥ mulDuration config.BedStatusPollMax Second
        · simp [pollLoop, hm, hs, hd]
        · simp only [pollLoop, hm, hs, hd, if_true, if_false, after_outcome] at h ⊢
          rw [ih (k + 1) fresh h]

theorem run_of_reachesPoll (w : World) (config : Configuration) (bed : Bed) (first : BedStatus)
    (fuel : Nat) (h : ReachesPoll w config bed first) :
    run fuel w = (pollLoop w config bed.BedID fuel 0 first).after (preamble w config bed) := by
  obtain ⟨beds, ⟨h1, h2, h3, h4, h5, h6, h7⟩, hidx, hbed, hctl⟩ := h
  subst hbed
  simp [run, h1, h2, h3, h4, h5, h6, h7, hidx, hctl, preamble]

/-- Every run either reaches the polling loop or ends before it, with exit
status 1 and the same calls whatever the iteration budget. -/
theorem run_cases (w : World) :
    (∃ config bed first, ReachesPoll w config bed first) ∨
    (∃ cs o, (∀ fuel, run fuel w = ⟨cs, none, some o⟩) ∧ o.exitCode = 1 ∧
      EarlyCalls w cs ∧ o ≠ Outcome.timedOut) := by
  by_cases h1 : w.loggerOk = false
  · right
    exact ⟨[], Outcome.loggerFailed, fun fuel => by simp [run, h1], rfl,
      ⟨rfl, rfl, "", "", "", Or.inl rfl⟩, by decide⟩
  cases h2 : w.config with
  | none =>
    right
    exact ⟨[], Outcome.configFailed, fun fuel => by simp [run, h1, h2], rfl,
      ⟨rfl, rfl, "", "", "", Or.inl rfl⟩, by decide⟩
  | some config =>
    by_cases h3 : w.bedName = ""
    · right
      exact ⟨[], Outcome.missingBedName, fun fuel => by simp [run, h1, h2, h3], rfl,
        ⟨rfl, rfl, "", "", "", Or.inl rfl⟩, by decide⟩
    by_cases h4 : w.side = ""
    · right
      exact ⟨[], Outcome.missingSide, fun fuel => by simp [run, h1, h2, h3, h4], rfl,
        ⟨rfl, rfl, "", "", "", Or.inl rfl⟩, by decide⟩
    by_cases h5 : w.position = 0
    · right
      exact ⟨[], Outcome.missingPosition, fun fuel => by simp [run, h1, h2, h3, h4, h5], rfl,
        ⟨rfl, rfl, "", "", "", Or.inl rfl⟩, by decide⟩
    by_cases h6 : w.login config.SleepIQUsername config.SleepIQPassword = false
    · right
      exact ⟨[Call.login config.SleepIQUsername config.SleepIQPassword], Outcome.loginFailed,
        fun fuel => by simp [run, h1, h2, h3, h4, h5, h6], rfl,
        ⟨rfl, rfl, config.SleepIQUsername, config.SleepIQPassword, "", Or.inr (Or.inl rfl)⟩,
        by decide⟩
    cases h7 : w.beds with
    | none =>
      right
      exact ⟨[Call.login config.SleepIQUsername config.SleepIQPassword, Call.beds],
        Outcome.bedsFailed, fun fuel => by simp [run, h1, h2, h3, h4, h5, h6, h7], rfl,
        ⟨rfl, rfl, config.SleepIQUsername, config.SleepIQPassword, "",
          Or.inr (Or.inr (Or.inl rfl))⟩, by decide⟩
    | some beds =>
      by_cases h8 : (findBed beds w.bedName).1 = -1
      · right
        exact ⟨[Call.login config.SleepIQUsername config.SleepIQPassword, Call.beds],
          Outcome.bedNotFound, fun fuel => by simp [run, h1, h2, h3, h4, h5, h6, h7, h8], rfl,
          ⟨rfl, rfl, config.SleepIQUsername, config.SleepIQPassword, "",
            Or.inr (Or.inr (Or.inl rfl))⟩, by decide⟩
      cases h9 : w.controlBedPosition (findBed beds w.bedName).2.BedID w.side w.position with
      | none =>
        right
        exact ⟨[Call.login config.SleepIQUsername config.SleepIQPassword, Call.beds,
            Call.controlBedPosition (findBed beds w.bedName).2.BedID w.side w.position],
          Outcome.commandFailed,
          fun fuel => by simp [run, h1, h2, h3, h4, h5, h6, h7, h8, h9], rfl,
          ⟨rfl, rfl, config.SleepIQUsername, config.SleepIQPassword,
            (findBed beds w.bedName).2.BedID, Or.inr (Or.inr (Or.inr ⟨rfl, h4, h5⟩))⟩,
          by decide⟩
      | some first =>
        left
        refine ⟨config, (findBed beds w.bedName).2, first, beds, ⟨?_, h2, h3, h4, h5, ?_, h7⟩,
          h8, rfl, h9⟩
        · simpa using h1
        · simpa using h6

theorem run_fuel_mono (fuel m : Nat) (w : World)
    (h : (run fuel w).outcome.isSome = true) : run (fuel + m) w = run fuel w := by
  rcases run_cases w with ⟨config, bed, first, hp⟩ | ⟨cs, o, hrun, _⟩
  · rw [run_of_reachesPoll w config bed first _ hp] at h ⊢
    rw [run_of_reachesPoll w config bed first _ hp]
    rw [after_outcome] at h
    rw [pollLoop_fuel_mono _ _ _ _ _ _ _ h]
  · rw [hrun, hrun]

/-- A run that polls a bed which answers moving every time, on a clock
advanced only by the sleeps and with durations that do not wrap, times out
after exactly the ceiling of poll maximum over poll interval status queries,
each followed by one sleep. -/
theorem run_all_moving (w : World) (config : Configuration) (bed : Bed) (fuel : Nat)
    (hp : ReachesPoll w config bed ⟨true⟩)
    (hI : 0 < config.BedStatusPollInterval) (hM : 0 < config.BedStatusPollMax)
    (hIw : config.BedStatusPollInterval * 1000000000 < 2 ^ 63)
    (hMw : config.BedStatusPollMax * 1000000000 < 2 ^ 63)
    (hmov : ∀ j, w.bedFoundationStatus j bed.BedID = some ⟨true⟩)
    (hclock : w.since = sleepClock (mulDuration config.BedStatusPollInterval Second))
    (hfuel : ((config.BedStatusPollMax + config.BedStatusPollInterval - 1) /
      config.BedStatusPollInterval).toNat ≤ fuel) :
    (run fuel w).outcome = some Outcome.timedOut ∧
      ((getStatusCount (run fuel w).calls : Nat) : Int) =
        (config.BedStatusPollMax + config.BedStatusPollInterval - 1) /
          config.BedStatusPollInterval ∧
      sleepCount (run fuel w).calls = getStatusCount (run fuel w).calls ∧
      (run fuel w).bedStatus = some ⟨true⟩ := by
  obtain ⟨hq1, hq2, hq3⟩ :=
    ceil_props config.BedStatusPollInterval config.BedStatusPollMax hI hM
  generalize hq : (config.BedStatusPollMax + config.BedStatusPollInterval - 1) /
    config.BedStatusPollInterval = q at hq1 hq2 hq3 hfuel ⊢
  have hd : mulDuration config.BedStatusPollInterval Second =
      config.BedStatusPollInterval * 1000000000 := mulDuration_seconds _ (le_of_lt hI) hIw
  have ht : mulDuration config.BedStatusPollMax Second =
      config.BedStatusPollMax * 1000000000 := mulDuration_seconds _ (le_of_lt hM) hMw
  have hN : ((q.toNat : Nat) : Int) = q := Int.toNat_of_nonneg (by omega)
  have hNpos : 1 ≤ q.toNat := by omega
  have hdpos : (0 : Int) ≤ config.BedStatusPollInterval * 1000000000 := by omega
  have hlive : ∀ j, 0 ≤ j → j < 0 + (q.toNat - 1) →
      w.since j < mulDuration config.BedStatusPollMax Second := by
    intro j _ hj
    rw [hclock, hd, ht]
    apply lt_of_not_ge
    rw [sleepClock_ge_iff _ _ j hdpos hMw]
    have hj2 : (j : Int) + 1 ≤ q - 1 := by omega
    have hmul : ((j : Int) + 1) * config.BedStatusPollInterval ≤
        (q - 1) * config.BedStatusPollInterval :=
      mul_le_mul_of_nonneg_right hj2 (le_of_lt hI)
    have e : ((j : Int) + 1) * (config.BedStatusPollInterval * 1000000000) =
        (((j : Int) + 1) * config.BedStatusPollInterval) * 1000000000 := by ring
    rw [e]
    omega
  have hdead : w.since (0 + (q.toNat - 1)) ≥ mulDuration config.BedStatusPollMax Second := by
    rw [hclock, hd, ht, sleepClock_ge_iff _ _ _ hdpos hMw]
    have e1 : (((0 + (q.toNat - 1) : Nat) : Int) + 1) = q := by omega
    rw [e1]
    have e : q * (config.BedStatusPollInterval * 1000000000) =
        (q * config.BedStatusPollInterval) * 1000000000 := by ring
    rw [e]
    omega
  have hall := pollLoop_all_moving w config bed.BedID fuel 0 (q.toNat - 1) hmov hlive hdead
    (by omega)
  rw [run_of_reachesPoll w config bed ⟨true⟩ fuel hp]
  simp only [after_outcome, after_calls, after_bedStatus, getStatusCount_append,
    sleepCount_append, getStatusCount_preamble, sleepCount_preamble, zero_add]
  refine ⟨hall.1, ?_, ?_, hall.2.2.2⟩
  · rw [hall.2.1]
    omega
  · rw [hall.2.1, hall.2.2.1]

theorem reachesBeds_scenario : ReachesBeds scenarioWorld ⟨"user", "secret", 1, 10⟩ scenarioBeds := by
  unfold ReachesBeds
  decide

theorem reachesPoll_scenario :
    ReachesPoll scenarioWorld ⟨"user", "secret", 1, 10⟩ ⟨"B", "Main"⟩ ⟨true⟩ :=
  ⟨scenarioBeds, reachesBeds_scenario, by decide, by decide, rfl⟩

/-! ## The claims -/

/-- C1: for a run that reaches the bed-identification loop over the list `L`
with a non-empty target name, the loop selects the first element of `L` whose
name equals the target (index and bed; the position command then goes to that
bed, also when later elements carry the same name), and when no element has
the name the index stays -1 and the run fails as bed-not-found with exit
status 1 and no position command. -/
theorem C1_bed_identification (w : World) (config : Configuration) (L : List Bed) (fuel : Nat)
    (h : ReachesBeds w config L) :
    (∀ pre b post, L = pre ++ b :: post → (∀ x ∈ pre, x.Name ≠ w.bedName) →
        b.Name = w.bedName →
        findBed L w.bedName = ((pre.length : Int), b) ∧
          Call.controlBedPosition b.BedID w.side w.position ∈ (run fuel w).calls) ∧
    ((∀ x ∈ L, x.Name ≠ w.bedName) →
        findBed L w.bedName = (-1, default) ∧
          (run fuel w).outcome = some Outcome.bedNotFound ∧
          (run fuel w).exitCode = some 1 ∧
          setPositionCount (run fuel w).calls = 0) := by
  obtain ⟨h1, h2, h3, h4, h5, h6, h7⟩ := h
  constructor
  · intro pre b post hL hpre hb
    have hfind : findBed L w.bedName = ((pre.length : Int), b) := by
      have := findBedFrom_first w.bedName pre b post 0 hpre hb
      rw [hL]
      unfold findBed
      rw [this]
      simp
    refine ⟨hfind, ?_⟩
    have hidx : (findBed L w.bedName).1 ≠ -1 := by
      rw [hfind]
      simp only [ne_eq]
      omega
    cases hc : w.controlBedPosition b.BedID w.side w.position with
    | none => simp [run, h1, h2, h3, h4, h5, h6, h7, hfind, hc]
    | some first =>
      have hp : ReachesPoll w config b first :=
        ⟨L, ⟨h1, h2, h3, h4, h5, h6, h7⟩, hidx, by rw [hfind], hc⟩
      rw [run_of_reachesPoll w config b first fuel hp]
      simp [preamble]
  · intro hnone
    have hfind : findBed L w.bedName = (-1, default) := findBedFrom_none w.bedName L 0 hnone
    refine ⟨hfind, ?_⟩
    simp [run, h1, h2, h3, h4, h5, h6, h7, hfind, RunResult.exitCode, Outcome.exitCode,
      setPositionCount, Call.isSetPosition]

/-- C1 at a list in which two beds carry the target name: the first of them
is selected. -/
theorem C1_bed_identification_witness :
    ReachesBeds duplicateWorld ⟨"user", "secret", 1, 10⟩ duplicateBeds ∧
      findBed duplicateBeds "Main" = (1, ⟨"B", "Main"⟩) ∧
      Call.controlBedPosition "B" "Left" 4 ∈ (run 5 duplicateWorld).calls :=
  have hr : ReachesBeds duplicateWorld ⟨"user", "secret", 1, 10⟩ duplicateBeds := by
    unfold ReachesBeds
    decide
  ⟨hr, (C1_bed_identification duplicateWorld ⟨"user", "secret", 1, 10⟩ duplicateBeds 5 hr).1
    [⟨"A", "Guest"⟩] ⟨"B", "Main"⟩ [⟨"C", "Main"⟩] rfl (by decide) rfl⟩

/-- C3: when the run reaches the position command and its response says the
bed is not moving, the run ends settled with exit status 0 without any status
query and without any sleep. -/
theorem C3_settled_without_polling (w : World) (config : Configuration) (bed : Bed)
    (first : BedStatus) (fuel : Nat) (h : ReachesPoll w config bed first)
    (hstop : first.IsMoving = false) :
    (run fuel w).outcome = some Outcome.settled ∧ (run fuel w).exitCode = some 0 ∧
      getStatusCount (run fuel w).calls = 0 ∧ sleepCount (run fuel w).calls = 0 := by
  rw [run_of_reachesPoll w config bed first fuel h,
    pollLoop_stopped w config bed.BedID fuel 0 first hstop]
  simp [RunResult.exitCode, RunResult.after, Outcome.exitCode]

/-- C3 at the scenario with a command response that is not moving. -/
theorem C3_settled_without_polling_witness :
    ReachesPoll stillWorld ⟨"user", "secret", 1, 10⟩ ⟨"B", "Main"⟩ ⟨false⟩ ∧
      (run 0 stillWorld).outcome = some Outcome.settled ∧
      (run 0 stillWorld).exitCode = some 0 ∧
      getStatusCount (run 0 stillWorld).calls = 0 ∧ sleepCount (run 0 stillWorld).calls = 0 :=
  have hp : ReachesPoll stillWorld ⟨"user", "secret", 1, 10⟩ ⟨"B", "Main"⟩ ⟨false⟩ :=
    ⟨scenarioBeds, by unfold ReachesBeds; decide, by decide, by decide, rfl⟩
  ⟨hp, C3_settled_without_polling stillWorld _ _ _ 0 hp rfl⟩

/-- C6, as the program has it: a run whose side is empty or whose position
is 0 is rejected with exit status 1 before any call to the remote service and
before any sleep. -/
theorem C6_missing_side_or_position (w : World) (fuel : Nat)
    (h : w.side = "" ∨ w.position = 0) :
    (run fuel w).exitCode = some 1 ∧ (run fuel w).calls = [] := by
  unfold run RunResult.exitCode
  by_cases h1 : w.loggerOk = false
  · simp [h1, Outcome.exitCode]
  · cases h2 : w.config with
    | none => simp [h1, Outcome.exitCode]
    | some config =>
      by_cases h3 : w.bedName = ""
      · simp [h1, h3, Outcome.exitCode]
      · by_cases h4 : w.side = ""
        · simp [h1, h3, h4, Outcome.exitCode]
        · have h5 : w.position = 0 := h.resolve_left h4
          simp [h1, h3, h4, h5, Outcome.exitCode]

/-- C6 at the scenario without a side. -/
theorem C6_missing_side_or_position_witness :
    (noSideWorld.side = "" ∨ noSideWorld.position = 0) ∧
      (run 3 noSideWorld).exitCode = some 1 ∧ (run 3 noSideWorld).calls = [] :=
  ⟨Or.inl rfl, C6_missing_side_or_position noSideWorld 3 (Or.inl rfl)⟩

/-- C6 as stated fails: with side Middle and position 7 the run authenticates,
lists the beds and sends the position command to the service. -/
theorem C6_counterexample :
    middleWorld.side ≠ "Left" ∧ middleWorld.side ≠ "Right" ∧
      ¬ (1 ≤ middleWorld.position ∧ middleWorld.position ≤ 6) ∧
      (run 0 middleWorld).calls =
        [Call.login "user" "secret", Call.beds, Call.controlBedPosition "B" "Middle" 7] := by
  decide

/-- C7: when the position command returns an error, the run fails with the
command-failure outcome and exit status 1, having made no status query, no
sleep and exactly one position command. -/
theorem C7_command_error (w : World) (config : Configuration) (beds : List Bed) (fuel : Nat)
    (h : ReachesBeds w config beds) (hidx : (findBed beds w.bedName).1 ≠ -1)
    (herr : w.controlBedPosition (findBed beds w.bedName).2.BedID w.side w.position = none) :
    (run fuel w).outcome = some Outcome.commandFailed ∧ (run fuel w).exitCode = some 1 ∧
      getStatusCount (run fuel w).calls = 0 ∧ sleepCount (run fuel w).calls = 0 ∧
      setPositionCount (run fuel w).calls = 1 := by
  obtain ⟨h1, h2, h3, h4, h5, h6, h7⟩ := h
  simp [run, h1, h2, h3, h4, h5, h6, h7, hidx, herr, RunResult.exitCode, Outcome.exitCode,
    getStatusCount, sleepCount, setPositionCount, Call.isGetStatus, Call.isSleep,
    Call.isSetPosition]

/-- C7 at the scenario with a failing position command. -/
theorem C7_command_error_witness :
    ReachesBeds commandErrorWorld ⟨"user", "secret", 1, 10⟩ scenarioBeds ∧
      (run 7 commandErrorWorld).outcome = some Outcome.commandFailed ∧
      (run 7 commandErrorWorld).exitCode = some 1 ∧
      getStatusCount (run 7 commandErrorWorld).calls = 0 ∧
      sleepCount (run 7 commandErrorWorld).calls = 0 ∧
      setPositionCount (run 7 commandErrorWorld).calls = 1 :=
  have hr : ReachesBeds commandErrorWorld ⟨"user", "secret", 1, 10⟩ scenarioBeds := by
    unfold ReachesBeds
    decide
  ⟨hr, C7_command_error commandErrorWorld _ scenarioBeds 7 hr (by decide) rfl⟩

/-- C9: in every run, whatever the service answers and however far the run
got, at most one position command was issued, the calls to the service start
the sequence authenticate, list beds, set position, status queries (so no
position command follows a status query), and a run whose bed name matches no
listed bed makes no position command and no status query and exits with
status 1. -/
theorem C9_single_command (w : World) (fuel : Nat) :
    setPositionCount (run fuel w).calls ≤ 1 ∧
    (∃ user pass bedID n rest,
      serviceCalls (run fuel w).calls ++ rest =
        [Call.login user pass, Call.beds, Call.controlBedPosition bedID w.side w.position] ++
          List.replicate n (Call.bedFoundationStatus bedID)) ∧
    ((∀ L, w.beds = some L → ∀ b ∈ L, b.Name ≠ w.bedName) →
      setPositionCount (run fuel w).calls = 0 ∧ getStatusCount (run fuel w).calls = 0 ∧
        (run fuel w).exitCode = some 1) := by
  refine ⟨?_, ?_, ?_⟩
  · rcases run_cases w with ⟨config, bed, first, hp⟩ | ⟨cs, o, hrun, _, ⟨_, _, u, p, b, hcs⟩, _⟩
    · rw [run_of_reachesPoll w config bed first fuel hp]
      simp [(pollLoop_service w config bed.BedID fuel 0 first).1]
    · rw [hrun]
      rcases hcs with h | h | h | ⟨h, _, _⟩ <;> subst h <;>
        simp [setPositionCount, Call.isSetPosition]
  · rcases run_cases w with ⟨config, bed, first, hp⟩ | ⟨cs, o, hrun, _, ⟨_, _, u, p, b, hcs⟩, _⟩
    · refine ⟨config.SleepIQUsername, config.SleepIQPassword, bed.BedID,
        getStatusCount (pollLoop w config bed.BedID fuel 0 first).calls, [], ?_⟩
      rw [run_of_reachesPoll w config bed first fuel hp]
      have hs := (pollLoop_service w config bed.BedID fuel 0 first).2
      simp only [after_calls, List.append_nil]
      unfold serviceCalls at hs ⊢
      rw [List.filter_append, hs]
      simp [preamble, Call.isService]
    · rw [hrun]
      rcases hcs with h | h | h | ⟨h, _, _⟩ <;> subst h
      · exact ⟨"", "", "", 0, [Call.login "" "", Call.beds,
          Call.controlBedPosition "" w.side w.position], by simp [serviceCalls]⟩
      · exact ⟨u, p, "", 0, [Call.beds, Call.controlBedPosition "" w.side w.position],
          by simp [serviceCalls, Call.isService]⟩
      · exact ⟨u, p, "", 0, [Call.controlBedPosition "" w.side w.position],
          by simp [serviceCalls, Call.isService]⟩
      · exact ⟨u, p, b, 0, [], by simp [serviceCalls, Call.isService]⟩
  · intro hnone
    unfold run RunResult.exitCode
    by_cases h1 : w.loggerOk = false
    · simp [h1, Outcome.exitCode]
    · cases h2 : w.config with
      | none => simp [h1, Outcome.exitCode]
      | some config =>
        by_cases h3 : w.bedName = ""
        · simp [h1, h3, Outcome.exitCode]
        by_cases h4 : w.side = ""
        · simp [h1, h3, h4, Outcome.exitCode]
        by_cases h5 : w.position = 0
        · simp [h1, h3, h4, h5, Outcome.exitCode]
        by_cases h6 : w.login config.SleepIQUsername config.SleepIQPassword = false
        · simp [h1, h3, h4, h5, h6, Outcome.exitCode, setPositionCount, getStatusCount,
            Call.isSetPosition, Call.isGetStatus]
        cases h7 : w.beds with
        | none =>
          simp [h1, h3, h4, h5, h6, Outcome.exitCode, setPositionCount, getStatusCount,
            Call.isSetPosition, Call.isGetStatus]
        | some beds =>
          have hfind : findBed beds w.bedName = (-1, default) :=
            findBedFrom_none w.bedName beds 0 (hnone beds h7)
          simp [h1, h3, h4, h5, h6, hfind, Outcome.exitCode, setPositionCount, getStatusCount,
            Call.isSetPosition, Call.isGetStatus]

/-- C9 at the scenario with the target name Nonexistent: no position command,
no status query, exit status 1. -/
theorem C9_single_command_witness :
    setPositionCount (run 4 nonexistentWorld).calls = 0 ∧
      getStatusCount (run 4 nonexistentWorld).calls = 0 ∧
      (run 4 nonexistentWorld).exitCode = some 1 :=
  (C9_single_command nonexistentWorld 4).2.2 (by
    intro L hL
    have e : L = scenarioBeds := (Option.some.inj hL).symm
    subst e
    decide)

/-- C2 as stated fails: with poll interval and poll maximum both 1 s, the
first status query answers stopped, the sleep that follows reaches the
deadline, and the run ends with the timeout outcome and exit status 1 while
the most recently fetched status has IsMoving false. -/
theorem C2_counterexample :
    deadlineWorld.bedFoundationStatus 0 "B" = some ⟨false⟩ ∧
      (run 5 deadlineWorld).outcome = some Outcome.timedOut ∧
      (run 5 deadlineWorld).exitCode = some 1 ∧
      (run 5 deadlineWorld).bedStatus = some ⟨false⟩ ∧
      getStatusCount (run 5 deadlineWorld).calls = 1 := by
  decide

/-- C2, as the program has it: a run that ends with the timeout outcome made
at least one status query, and the deadline check after its last query found
the elapsed time at or above the poll maximum (the status then held is the
answer to that query, moving or not); and a run in which some status query
answers stopped and the deadline check after it finds the elapsed time below
the poll maximum ends settled with exit status 0 right after that query. -/
theorem C2_timeout_at_deadline (w : World) (fuel : Nat) :
    ((run fuel w).outcome = some Outcome.timedOut →
      ∃ (config : Configuration) (bed : Bed) (j : Nat) (fresh : BedStatus),
        w.config = some config ∧
        getStatusCount (run fuel w).calls = j + 1 ∧
        w.since j ≥ mulDuration config.BedStatusPollMax Second ∧
        w.bedFoundationStatus j bed.BedID = some fresh ∧
        (run fuel w).bedStatus = some fresh) ∧
    (∀ (config : Configuration) (bed : Bed) (first : BedStatus) (j : Nat),
      ReachesPoll w config bed first →
      j < getStatusCount (run fuel w).calls →
      w.bedFoundationStatus j bed.BedID = some ⟨false⟩ →
      w.since j < mulDuration config.BedStatusPollMax Second →
      (run fuel w).outcome = some Outcome.settled ∧ (run fuel w).exitCode = some 0 ∧
        getStatusCount (run fuel w).calls = j + 1) := by
  constructor
  · intro h
    rcases run_cases w with ⟨config, bed, first, hp⟩ | ⟨cs, o, hrun, _, _, hne⟩
    · rw [run_of_reachesPoll w config bed first fuel hp] at h ⊢
      rw [after_outcome] at h
      obtain ⟨j, fresh, h1, h2, h3, h4⟩ :=
        pollLoop_timedOut_inv w config bed.BedID fuel 0 first h
      obtain ⟨beds, ⟨_, hcfg, _⟩, _⟩ := hp
      refine ⟨config, bed, j, fresh, hcfg, ?_, ?_, ?_, ?_⟩
      · simp [h1]
      · simpa using h2
      · simpa using h3
      · simpa using h4
    · rw [hrun] at h
      simp only [Option.some.injEq] at h
      exact absurd h hne
  · intro config bed first j hp hmade hstop hlive
    rw [run_of_reachesPoll w config bed first fuel hp] at hmade ⊢
    simp only [after_calls, getStatusCount_append, getStatusCount_preamble, zero_add] at hmade
    have hs := pollLoop_settles w config bed.BedID fuel 0 j first hmade
      (by simpa using hstop) (by simpa using hlive)
    simp [RunResult.exitCode, hs.1, hs.2.1, Outcome.exitCode]

/-- C2 at the end-to-end scenario: the third status query answers stopped
three seconds into a ten-second maximum, and the run ends settled. -/
theorem C2_timeout_at_deadline_witness :
    (run 6 scenarioWorld).outcome = some Outcome.settled ∧
      (run 6 scenarioWorld).exitCode = some 0 ∧
      getStatusCount (run 6 scenarioWorld).calls = 2 + 1 :=
  (C2_timeout_at_deadline scenarioWorld 6).2 ⟨"user", "secret", 1, 10⟩ ⟨"B", "Main"⟩ ⟨true⟩ 2
    reachesPoll_scenario (by decide) (by decide) (by decide)

/-- C5 as stated fails: whatever the iteration budget, the scenario never
ends settled after exactly two status queries and two sleeps. -/
theorem C5_counterexample :
    ¬ ∃ fuel, getStatusCount (run fuel scenarioWorld).calls = 2 ∧
      sleepCount (run fuel scenarioWorld).calls = 2 ∧
      (run fuel scenarioWorld).outcome = some Outcome.settled := by
  rintro ⟨fuel, h1, _, h3⟩
  by_cases hf : fuel < 3
  · interval_cases fuel <;> revert h3 <;> decide
  · obtain ⟨m, rfl⟩ : ∃ m, fuel = 3 + m := ⟨fuel - 3, by omega⟩
    rw [run_fuel_mono 3 m scenarioWorld (by decide)] at h1
    revert h1
    decide

/-- C5, as the program has it: in the end-to-end scenario the loop selects
bed B at index 1, and with any budget of at least three iterations the run
makes exactly three status queries for bed B and exactly three sleeps of 1 s,
and ends settled with exit status 0. -/
theorem C5_scenario (m : Nat) :
    findBed scenarioBeds "Main" = (1, ⟨"B", "Main"⟩) ∧
      (run (3 + m) scenarioWorld).calls =
        [Call.login "user" "secret", Call.beds, Call.controlBedPosition "B" "Left" 4,
         Call.bedFoundationStatus "B", Call.sleep 1000000000,
         Call.bedFoundationStatus "B", Call.sleep 1000000000,
         Call.bedFoundationStatus "B", Call.sleep 1000000000] ∧
      getStatusCount (run (3 + m) scenarioWorld).calls = 3 ∧
      sleepCount (run (3 + m) scenarioWorld).calls = 3 ∧
      (run (3 + m) scenarioWorld).outcome = some Outcome.settled ∧
      (run (3 + m) scenarioWorld).exitCode = some 0 := by
  rw [run_fuel_mono 3 m scenarioWorld (by decide)]
  decide

/-- C4 as stated fails: with poll interval 1 s and poll maximum 9223372037 s
the product of the maximum with `time.Second` wraps to a negative duration,
the first deadline check fires, and the run times out after one status query
while the floor of poll maximum over poll interval is 9223372037. -/
theorem C4_counterexample :
    wrapMaxWorld.config = some ⟨"user", "secret", 1, 9223372037⟩ ∧
      mulDuration 9223372037 Second = -9223372036709551616 ∧
      (run 5 wrapMaxWorld).outcome = some Outcome.timedOut ∧
      getStatusCount (run 5 wrapMaxWorld).calls = 1 ∧
      ((getStatusCount (run 5 wrapMaxWorld).calls : Nat) : Int) + 1 < 9223372037 / 1 := by
  decide

/-- C4, with durations that do not wrap: when the run enters the polling
loop, every status query answers moving, poll interval and poll maximum are
positive whole seconds whose products with `time.Second` stay below 2^63 and
the clock advances only by the sleeps, the run ends with the timeout outcome
and exit status 1 after exactly the ceiling of poll maximum over poll
interval status queries, which is the floor or the floor plus one, each query
followed by one sleep. -/
theorem C4_timeout_count (w : World) (config : Configuration) (bed : Bed) (fuel : Nat)
    (hp : ReachesPoll w config bed ⟨true⟩)
    (hI : 0 < config.BedStatusPollInterval) (hM : 0 < config.BedStatusPollMax)
    (hIw : config.BedStatusPollInterval * 1000000000 < 2 ^ 63)
    (hMw : config.BedStatusPollMax * 1000000000 < 2 ^ 63)
    (hmov : ∀ j, w.bedFoundationStatus j bed.BedID = some ⟨true⟩)
    (hclock : w.since = sleepClock (mulDuration config.BedStatusPollInterval Second))
    (hfuel : ((config.BedStatusPollMax + config.BedStatusPollInterval - 1) /
      config.BedStatusPollInterval).toNat ≤ fuel) :
    (run fuel w).outcome = some Outcome.timedOut ∧ (run fuel w).exitCode = some 1 ∧
      ((getStatusCount (run fuel w).calls : Nat) : Int) =
        (config.BedStatusPollMax + config.BedStatusPollInterval - 1) /
          config.BedStatusPollInterval ∧
      config.BedStatusPollMax / config.BedStatusPollInterval ≤
        ((getStatusCount (run fuel w).calls : Nat) : Int) ∧
      ((getStatusCount (run fuel w).calls : Nat) : Int) ≤
        config.BedStatusPollMax / config.BedStatusPollInterval + 1 ∧
      sleepCount (run fuel w).calls = getStatusCount (run fuel w).calls := by
  obtain ⟨h1, h2, h3, _⟩ := run_all_moving w config bed fuel hp hI hM hIw hMw hmov hclock hfuel
  obtain ⟨f1, f2⟩ := floor_ceil config.BedStatusPollInterval config.BedStatusPollMax hI hM
  refine ⟨h1, ?_, h2, ?_, ?_, h3⟩
  · simp [RunResult.exitCode, h1, Outcome.exitCode]
  · rw [h2]; exact f1
  · rw [h2]; exact f2

/-- C4 at poll interval 2 s and poll maximum 5 s: three status queries. -/
theorem C4_timeout_count_witness :
    ReachesPoll movingWorld ⟨"user", "secret", 2, 5⟩ ⟨"B", "Main"⟩ ⟨true⟩ ∧
      (run 3 movingWorld).outcome = some Outcome.timedOut ∧
      (run 3 movingWorld).exitCode = some 1 ∧
      ((getStatusCount (run 3 movingWorld).calls : Nat) : Int) = (5 + 2 - 1) / 2 ∧
      (5 : Int) / 2 ≤ ((getStatusCount (run 3 movingWorld).calls : Nat) : Int) ∧
      ((getStatusCount (run 3 movingWorld).calls : Nat) : Int) ≤ 5 / 2 + 1 ∧
      sleepCount (run 3 movingWorld).calls = getStatusCount (run 3 movingWorld).calls :=
  have hp : ReachesPoll movingWorld ⟨"user", "secret", 2, 5⟩ ⟨"B", "Main"⟩ ⟨true⟩ :=
    ⟨scenarioBeds, by unfold ReachesBeds; decide, by decide, by decide, rfl⟩
  ⟨hp, C4_timeout_count movingWorld ⟨"user", "secret", 2, 5⟩ ⟨"B", "Main"⟩ 3 hp
    (by decide) (by decide) (by decide) (by decide) (fun _ => rfl) rfl (by decide)⟩

/-- C8 as stated fails: a poll interval of 18446744074 s is at least the poll
maximum of 1 s, yet its product with `time.Second` wraps to 290448384 ns, and
the run makes four status queries and four sleeps before it times out. -/
theorem C8_counterexample :
    wrapIntervalWorld.config = some ⟨"user", "secret", 18446744074, 1⟩ ∧
      (18446744074 : Int) ≥ 1 ∧ (1 : Int) > 0 ∧
      mulDuration 18446744074 Second = 290448384 ∧
      (run 9 wrapIntervalWorld).outcome = some Outcome.timedOut ∧
      getStatusCount (run 9 wrapIntervalWorld).calls = 4 ∧
      sleepCount (run 9 wrapIntervalWorld).calls = 4 := by
  decide

/-- C8, with a poll interval that does not wrap: when the run reaches the
polling loop, the poll maximum is positive, the poll interval is at least the
poll maximum, its product with `time.Second` stays below 2^63 and the clock
advances only by the sleeps, the run ends after at most one status query and
at most one sleep; and when the command response says moving and that query
answers moving, the outcome is the timeout with exit status 1. -/
theorem C8_long_interval (w : World) (config : Configuration) (bed : Bed) (first : BedStatus)
    (fuel : Nat) (hp : ReachesPoll w config bed first)
    (hM : 0 < config.BedStatusPollMax)
    (hIM : config.BedStatusPollMax ≤ config.BedStatusPollInterval)
    (hIw : config.BedStatusPollInterval * 1000000000 < 2 ^ 63)
    (hclock : w.since = sleepClock (mulDuration config.BedStatusPollInterval Second))
    (hfuel : 1 ≤ fuel) :
    (run fuel w).outcome.isSome = true ∧ getStatusCount (run fuel w).calls ≤ 1 ∧
      sleepCount (run fuel w).calls ≤ 1 ∧
      (first.IsMoving = true → w.bedFoundationStatus 0 bed.BedID = some ⟨true⟩ →
        (run fuel w).outcome = some Outcome.timedOut ∧ (run fuel w).exitCode = some 1) := by
  have hMw : config.BedStatusPollMax * 1000000000 < 2 ^ 63 := by omega
  have hd : mulDuration config.BedStatusPollInterval Second =
      config.BedStatusPollInterval * 1000000000 := mulDuration_seconds _ (by omega) hIw
  have ht : mulDuration config.BedStatusPollMax Second =
      config.BedStatusPollMax * 1000000000 := mulDuration_seconds _ (le_of_lt hM) hMw
  have hdead : w.since 0 ≥ mulDuration config.BedStatusPollMax Second := by
    rw [hclock, hd, ht, sleepClock_ge_iff _ _ _ (by omega) hMw]
    simp only [Nat.cast_zero, zero_add, one_mul]
    omega
  have hb := pollLoop_terminates_within w config bed.BedID fuel 0 0 first hdead (by omega)
  rw [run_of_reachesPoll w config bed first fuel hp]
  simp only [after_outcome, after_calls, getStatusCount_append, sleepCount_append,
    getStatusCount_preamble, sleepCount_preamble, zero_add]
  refine ⟨hb.1, hb.2.1, hb.2.2, ?_⟩
  intro hm hs
  obtain ⟨f, rfl⟩ : ∃ f, fuel = f + 1 := ⟨fuel - 1, by omega⟩
  simp [pollLoop, hm, hs, hdead, RunResult.exitCode, Outcome.exitCode]

/-- C8 at poll interval 5 s and poll maximum 3 s. -/
theorem C8_long_interval_witness :
    ReachesPoll longIntervalWorld ⟨"user", "secret", 5, 3⟩ ⟨"B", "Main"⟩ ⟨true⟩ ∧
      (run 2 longIntervalWorld).outcome.isSome = true ∧
      getStatusCount (run 2 longIntervalWorld).calls ≤ 1 ∧
      sleepCount (run 2 longIntervalWorld).calls ≤ 1 ∧
      (run 2 longIntervalWorld).outcome = some Outcome.timedOut ∧
      (run 2 longIntervalWorld).exitCode = some 1 :=
  have hp : ReachesPoll longIntervalWorld ⟨"user", "secret", 5, 3⟩ ⟨"B", "Main"⟩ ⟨true⟩ :=
    ⟨scenarioBeds, by unfold ReachesBeds; decide, by decide, by decide, rfl⟩
  have h := C8_long_interval longIntervalWorld ⟨"user", "secret", 5, 3⟩ ⟨"B", "Main"⟩ ⟨true⟩ 2 hp
    (by decide) (by decide) (by decide) rfl (by decide)
  ⟨hp, h.1, h.2.1, h.2.2.1, h.2.2.2 rfl rfl⟩

/-- C10 as stated fails in its "exactly when": with poll interval and poll
maximum both 1 s on a clock advanced only by the sleeps, the run makes one
status query, which is the ceiling of poll maximum over poll interval, although
that query answers stopped. -/
theorem C10_counterexample :
    deadlineWorld.config = some ⟨"user", "secret", 1, 1⟩ ∧
      deadlineWorld.since = sleepClock (mulDuration 1 Second) ∧
      (run 5 deadlineWorld).outcome.isSome = true ∧
      ((getStatusCount (run 5 deadlineWorld).calls : Nat) : Int) = (1 + 1 - 1) / 1 ∧
      ¬ (∀ j, deadlineWorld.bedFoundationStatus j "B" = some ⟨true⟩) :=
  ⟨rfl, rfl, by decide, by decide, fun h => absurd (h 0) (by decide)⟩

/-- C10, with "when" for "exactly when": for positive poll interval and poll
maximum whose products with `time.Second` stay below 2^63, whatever the status
queries answer, on a clock that is never behind the one advanced only by the
sleeps, the run ends after at most the ceiling of poll maximum over poll
interval status queries; the bound is reached when the command and every
status query answer moving and the clock advances only by the sleeps; and in
any run every status query but the last answered moving. -/
theorem C10_poll_bound (w : World) (config : Configuration) (bed : Bed) (first : BedStatus)
    (fuel : Nat) (hp : ReachesPoll w config bed first)
    (hI : 0 < config.BedStatusPollInterval) (hM : 0 < config.BedStatusPollMax)
    (hIw : config.BedStatusPollInterval * 1000000000 < 2 ^ 63)
    (hMw : config.BedStatusPollMax * 1000000000 < 2 ^ 63)
    (hclock : ∀ k, sleepClock (mulDuration config.BedStatusPollInterval Second) k ≤ w.since k)
    (hfuel : ((config.BedStatusPollMax + config.BedStatusPollInterval - 1) /
      config.BedStatusPollInterval).toNat ≤ fuel) :
    (run fuel w).outcome.isSome = true ∧
      ((getStatusCount (run fuel w).calls : Nat) : Int) ≤
        (config.BedStatusPollMax + config.BedStatusPollInterval - 1) /
          config.BedStatusPollInterval ∧
      ((first.IsMoving = true ∧ (∀ j, w.bedFoundationStatus j bed.BedID = some ⟨true⟩) ∧
          w.since = sleepClock (mulDuration config.BedStatusPollInterval Second)) →
        ((getStatusCount (run fuel w).calls : Nat) : Int) =
          (config.BedStatusPollMax + config.BedStatusPollInterval - 1) /
            config.BedStatusPollInterval) ∧
      (∀ j, j + 1 < getStatusCount (run fuel w).calls →
        w.bedFoundationStatus j bed.BedID = some ⟨true⟩) := by
  have hbound : (run fuel w).outcome.isSome = true ∧
      ((getStatusCount (run fuel w).calls : Nat) : Int) ≤
        (config.BedStatusPollMax + config.BedStatusPollInterval - 1) /
          config.BedStatusPollInterval := by
    obtain ⟨hq1, hq2, _⟩ :=
      ceil_props config.BedStatusPollInterval config.BedStatusPollMax hI hM
    generalize (config.BedStatusPollMax + config.BedStatusPollInterval - 1) /
      config.BedStatusPollInterval = q at hq1 hq2 hfuel ⊢
    have hd : mulDuration config.BedStatusPollInterval Second =
        config.BedStatusPollInterval * 1000000000 := mulDuration_seconds _ (le_of_lt hI) hIw
    have ht : mulDuration config.BedStatusPollMax Second =
        config.BedStatusPollMax * 1000000000 := mulDuration_seconds _ (le_of_lt hM) hMw
    have hdead : w.since (0 + (q.toNat - 1)) ≥ mulDuration config.BedStatusPollMax Second := by
      refine le_trans ?_ (hclock (0 + (q.toNat - 1)))
      rw [hd, ht]
      apply (sleepClock_ge_iff _ _ _ (by omega) hMw).mpr
      have e1 : (((0 + (q.toNat - 1) : Nat) : Int) + 1) = q := by omega
      rw [e1]
      have e : q * (config.BedStatusPollInterval * 1000000000) =
          (q * config.BedStatusPollInterval) * 1000000000 := by ring
      rw [e]
      omega
    have hb := pollLoop_terminates_within w config bed.BedID fuel 0 (q.toNat - 1) first hdead
      (by omega)
    rw [run_of_reachesPoll w config bed first fuel hp]
    simp only [after_outcome, after_calls, getStatusCount_append, getStatusCount_preamble,
      zero_add]
    refine ⟨hb.1, ?_⟩
    have := hb.2.1
    omega
  refine ⟨hbound.1, hbound.2, ?_, ?_⟩
  · rintro ⟨hm, hmov, hexact⟩
    have hf : first = ⟨true⟩ := bedStatus_moving first hm
    subst hf
    exact (run_all_moving w config bed fuel hp hI hM hIw hMw hmov hexact hfuel).2.1
  · intro j hj
    rw [run_of_reachesPoll w config bed first fuel hp] at hj
    simp only [after_calls, getStatusCount_append, getStatusCount_preamble, zero_add] at hj
    have := (pollLoop_earlier_moving w config bed.BedID fuel 0 j first hj).1
    simpa using this

/-- C10 at poll interval 2 s and poll maximum 5 s with a bed that answers
moving every time: the run ends, and the bound of three queries is reached. -/
theorem C10_poll_bound_witness :
    ReachesPoll movingWorld ⟨"user", "secret", 2, 5⟩ ⟨"B", "Main"⟩ ⟨true⟩ ∧
      (run 4 movingWorld).outcome.isSome = true ∧
      ((getStatusCount (run 4 movingWorld).calls : Nat) : Int) = (5 + 2 - 1) / 2 :=
  have hp : ReachesPoll movingWorld ⟨"user", "secret", 2, 5⟩ ⟨"B", "Main"⟩ ⟨true⟩ :=
    ⟨scenarioBeds, by unfold ReachesBeds; decide, by decide, by decide, rfl⟩
  have h := C10_poll_bound movingWorld ⟨"user", "secret", 2, 5⟩ ⟨"B", "Main"⟩ ⟨true⟩ 4 hp
    (by decide) (by decide) (by decide) (by decide) (fun _ => le_refl _) (by decide)
  ⟨hp, h.1, h.2.2.1 ⟨rfl, fun _ => rfl, rfl⟩⟩

end SleepNumber
